import Mathlib

/-!
Verification of the SRP server core (`src/core/net/srp_server.cpp`).

The update parser, registry, and commit logic are embedded shallowly:
DNS records are modelled at the record-view level (the wire codec is an
external collaborator of the core), heap allocation is modelled as
unbounded, and the external crypto / name utilities are modelled as pure
predicates.  Machine integers are modelled as `Nat`; the source never
relies on wrap-around in the code under verification.
-/

set_option maxHeartbeats 1000000

namespace SrpServer

/-! ## Wire constants (`dns_types.hpp` values used by the server) -/

def kClassInternet : Nat := 1
def kClassNone : Nat := 254
def kClassAny : Nat := 255

def kTypeSoa : Nat := 6
def kTypePtr : Nat := 12
def kTypeTxt : Nat := 16
def kTypeKey : Nat := 25
def kTypeAaaa : Nat := 28
def kTypeSrv : Nat := 33
def kTypeAny : Nat := 255

def kServiceSubTypeLabel : String := "._sub."
def kDefaultDomain : String := "default.service.arpa."

/-- `kDefaultEventsHandlerTimeout` (milliseconds), per the spec default. -/
def kDefaultEventsHandlerTimeout : Nat := 500

/-- `TimerMilli::kMaxDelay` in milliseconds. -/
def kMaxDelayMs : Nat := 2 ^ 31 - 1

def msecToSec (aMilliseconds : Nat) : Nat := aMilliseconds / 1000

def kMaxNameSize : Nat := 255

/-! ## Errors and response codes -/

inductive SrpError
  | noBufs
  | parse
  | failed
  | security
  | duplicated
  | invalidArgs
  | invalidState
  | responseTimeout
  | drop
deriving DecidableEq, Repr

inductive DnsResponse
  | success
  | serverFailure
  | formatError
  | nameExists
  | refused
deriving DecidableEq, Repr

/-- `ErrorToDnsResponseCode`; `none` stands for `kErrorNone`. -/
def errorToDnsResponseCode : Option SrpError → DnsResponse
  | none => .success
  | some .noBufs => .serverFailure
  | some .parse => .formatError
  | some .duplicated => .nameExists
  | some _ => .refused

def exceptOk {α : Type} : Except SrpError α → Bool
  | .ok _ => true
  | .error _ => false

deriving instance DecidableEq for Except

/-! ## Name utilities (external collaborators; modelled from the spec:
case-insensitive DNS-name equality and sub-domain test). -/

def lowerChar (c : Char) : Char :=
  if 65 ≤ c.toNat ∧ c.toNat ≤ 90 then Char.ofNat (c.toNat + 32) else c

def lowerName (s : String) : List Char := s.data.map lowerChar

def dnsMatch (a b : String) : Bool := lowerName a == lowerName b

def isSubDomainOf (aName aDomain : String) : Bool :=
  (lowerName aDomain).isSuffixOf (lowerName aName)

/-- `StringFind(serviceName, "._sub.")`: when the sub-type infix occurs, the
base service name is everything after its first occurrence. -/
def findSubTypeBaseChars : List Char → Option (List Char)
  | [] => none
  | c :: rest =>
    if kServiceSubTypeLabel.data.isPrefixOf (c :: rest) then
      some ((c :: rest).drop kServiceSubTypeLabel.data.length)
    else findSubTypeBaseChars rest

def findSubTypeBase (aServiceName : String) : Option (List Char) :=
  findSubTypeBaseChars aServiceName.data

/-- Modelled from the spec: `Dns::TxtRecord::VerifyTxtData` (well-formed TXT
wire data, i.e. a sequence of length-prefixed strings; empty disallowed).
The fuel argument bounds the number of strings; a list of length n holds at
most n strings, so `wellFormedTxt` supplies fuel n. -/
def wellFormedTxtAux : Nat → List Nat → Bool
  | _, [] => true
  | 0, _ :: _ => false
  | fuel + 1, l :: rest =>
    if l ≤ rest.length then wellFormedTxtAux fuel (rest.drop l) else false

def wellFormedTxt (aData : List Nat) : Bool := wellFormedTxtAux aData.length aData

def verifyTxtData (aData : List Nat) : Bool :=
  !aData.isEmpty && wellFormedTxt aData

/-! ## Data model -/

/-- IPv6 address view: the categories the server consults are carried as
fields (the address internals are external to the core). -/
structure Ip6Address where
  addrId : Nat
  isMulticast : Bool := false
  isUnspecified : Bool := false
  isLoopback : Bool := false
deriving DecidableEq, Repr

/-- `Server::Service::Description`.  `updateTime = none` models the
`GetDistantPast()` sentinel a fresh description carries, which never equals
a receive time. -/
structure ServiceDescription where
  instanceName : String
  priority : Nat := 0
  weight : Nat := 0
  port : Nat := 0
  lease : Nat := 0
  keyLease : Nat := 0
  updateTime : Option Nat := none
  txtData : Option (List Nat) := none
deriving DecidableEq, Repr

/-- `Server::Service`.  The non-owning description pointer is modelled by
the shared `instanceName` key into the host's description list. -/
structure Service where
  serviceName : String
  instanceName : String
  isSubType : Bool
  isDeleted : Bool
  isCommitted : Bool
  updateTime : Nat
deriving DecidableEq, Repr

/-- `Server::Host`.  The key is the ECDSA-P256 KEY record, abstracted. -/
structure Host where
  fullName : Option String := none
  addresses : List Ip6Address := []
  key : Option Nat := none
  lease : Nat := 0
  keyLease : Nat := 0
  updateTime : Nat
  services : List Service := []
  serviceDescriptions : List ServiceDescription := []
deriving DecidableEq, Repr

/-- `Host::New(instance, aRxTime)` followed by `Host::Init`. -/
def initialHost (aRxTime : Nat) : Host := { updateTime := aRxTime }

def ServiceDescription.clearResources (d : ServiceDescription) : ServiceDescription :=
  { d with port := 0, txtData := none }

def Host.findServiceDescription (h : Host) (aInstanceName : String) :
    Option ServiceDescription :=
  h.serviceDescriptions.find? (fun d => dnsMatch d.instanceName aInstanceName)

def Host.findService (h : Host) (aServiceName aInstanceName : String) : Option Service :=
  h.services.find? (fun s =>
    dnsMatch s.serviceName aServiceName && dnsMatch s.instanceName aInstanceName)

def newDescription (aInstanceName : String) : ServiceDescription :=
  { instanceName := aInstanceName }

/-- `Host::AddNewService`: reuse the description matching the instance name
or push a fresh one, then push the new service. -/
def Host.addNewService (h : Host) (aServiceName aInstanceName : String)
    (aIsSubType : Bool) (aUpdateTime : Nat) : Host :=
  let h2 := if (h.findServiceDescription aInstanceName).isSome then h
            else { h with serviceDescriptions :=
                     newDescription aInstanceName :: h.serviceDescriptions }
  { h2 with services :=
      { serviceName := aServiceName, instanceName := aInstanceName,
        isSubType := aIsSubType, isDeleted := false, isCommitted := false,
        updateTime := aUpdateTime } :: h2.services }

def modifyFirst {α : Type} (p : α → Bool) (f : α → α) : List α → List α
  | [] => []
  | x :: rest => if p x then f x :: rest else x :: modifyFirst p f rest

def Host.modifyDesc (h : Host) (aInstanceName : String)
    (f : ServiceDescription → ServiceDescription) : Host :=
  { h with serviceDescriptions :=
      modifyFirst (fun d => dnsMatch d.instanceName aInstanceName) f h.serviceDescriptions }

def Host.modifyService (h : Host) (aServiceName aInstanceName : String)
    (f : Service → Service) : Host :=
  { h with services :=
      (modifyFirst
        (fun s => dnsMatch s.serviceName aServiceName && dnsMatch s.instanceName aInstanceName)
        f h.services) }

/-- Mutation through the pointer just returned by `AddNewService` (the new
service is the head of the list). -/
def Host.modifyHeadService (h : Host) (f : Service → Service) : Host :=
  match h.services with
  | [] => h
  | s :: rest => { h with services := f s :: rest }

/-- `Host::ClearResources` clears only the address list. -/
def Host.clearResources (h : Host) : Host := { h with addresses := [] }

/-- `Host::SetFullName`: immutable after first assignment. -/
def Host.setFullName (h : Host) (aFullName : String) : Except SrpError Host :=
  match h.fullName with
  | none => .ok { h with fullName := some aFullName }
  | some n => if dnsMatch n aFullName then .ok h else .error .failed

/-- `Host::AddIp6Address`: invalid categories and duplicates are silently
dropped; the model's address list is unbounded so `kErrorNoBufs` does not
arise. -/
def Host.addIp6Address (h : Host) (a : Ip6Address) : Host :=
  if a.isMulticast || a.isUnspecified || a.isLoopback then h
  else if h.addresses.contains a then h
  else { h with addresses := h.addresses ++ [a] }

def hostMatches (h : Host) (aName : String) : Bool :=
  match h.fullName with
  | some n => dnsMatch n aName
  | none => false

/-- `mHosts.FindMatching(name)`. -/
def findHost (aHosts : List Host) (aName : String) : Option Host :=
  aHosts.find? (fun h => hostMatches h aName)

/-- `mHosts.Remove` of the host found by `FindMatching` (first match). -/
def removeFirstHost (aName : String) : List Host → List Host
  | [] => []
  | h :: rest => if hostMatches h aName then rest else h :: removeFirstHost aName rest

/-! ## Lease configuration -/

structure LeaseConfig where
  minLease : Nat
  maxLease : Nat
  minKeyLease : Nat
  maxKeyLease : Nat
deriving DecidableEq, Repr

def LeaseConfig.isValid (c : LeaseConfig) : Bool :=
  decide (c.maxKeyLease ≤ msecToSec kMaxDelayMs) &&
  decide (c.minLease ≤ c.maxLease) &&
  decide (c.minKeyLease ≤ c.maxKeyLease) &&
  decide (c.minLease ≤ c.minKeyLease) &&
  decide (c.maxLease ≤ c.maxKeyLease)

def LeaseConfig.grantLease (c : LeaseConfig) (aLease : Nat) : Nat :=
  if aLease = 0 then 0 else max c.minLease (min c.maxLease aLease)

def LeaseConfig.grantKeyLease (c : LeaseConfig) (aKeyLease : Nat) : Nat :=
  if aKeyLease = 0 then 0 else max c.minKeyLease (min c.maxKeyLease aKeyLease)

/-! ## Server facade configuration and its setters -/

inductive ServerState
  | disabled
  | stopped
  | running
deriving DecidableEq, Repr

inductive AddressMode
  | unicast
  | anycast
deriving DecidableEq, Repr

structure ServerConfig where
  state : ServerState
  addressMode : AddressMode
  anycastSequenceNumber : Nat
  domain : String
  leaseConfig : LeaseConfig
deriving DecidableEq, Repr

def setAddressMode (s : ServerConfig) (aMode : AddressMode) : Except SrpError ServerConfig :=
  if s.state != ServerState.disabled then .error .invalidState
  else if s.addressMode == aMode then .ok s
  else .ok { s with addressMode := aMode }

def setAnycastModeSequenceNumber (s : ServerConfig) (aSequenceNumber : Nat) :
    Except SrpError ServerConfig :=
  if s.state != ServerState.disabled then .error .invalidState
  else .ok { s with anycastSequenceNumber := aSequenceNumber }

def setDomain (s : ServerConfig) (aDomain : String) : Except SrpError ServerConfig :=
  if s.state != ServerState.disabled then .error .invalidState
  else
    let length := min aDomain.length kMaxNameSize
    if ¬(0 < length ∧ length < kMaxNameSize) then .error .invalidArgs
    else if aDomain.data.getLast? == some (Char.ofNat 46) then .ok { s with domain := aDomain }
    else if length < kMaxNameSize - 1 then .ok { s with domain := aDomain ++ "." }
    else .error .invalidArgs

/-- `Server::SetLeaseConfig` (note: the source has no server-state check
here). -/
def setLeaseConfig (s : ServerConfig) (c : LeaseConfig) : Except SrpError ServerConfig :=
  if c.isValid then .ok { s with leaseConfig := c } else .error .invalidArgs

/-! ## Records of the Update section -/

inductive RData
  | ptr (instanceName : String)
  | aaaa (address : Ip6Address)
  | key (keyData : Nat)
  | srv (priority weight port : Nat) (target : String)
  | txt (data : List Nat)
  | other
deriving DecidableEq, Repr

/-- A record view of the Update section: owner name, header fields and the
typed body. -/
structure UpdateRecord where
  name : String
  rtype : Nat
  rclass : Nat
  ttl : Nat := 0
  rdlength : Nat := 0
  rdata : RData := .other
deriving DecidableEq, Repr

def isValidDeleteAllRecord (r : UpdateRecord) : Bool :=
  r.rclass == kClassAny && r.rtype == kTypeAny && r.ttl == 0 && r.rdlength == 0

def foldRecords (f : Host → UpdateRecord → Except SrpError Host) :
    Host → List UpdateRecord → Except SrpError Host
  | h, [] => .ok h
  | h, r :: rest =>
    match f h r with
    | .error e => .error e
    | .ok h2 => foldRecords f h2 rest

/-! ## Pass 1: Service Discovery instructions -/

def processServiceDiscoveryRecord (aDomain : String) (aZoneClass aRxTime : Nat)
    (host : Host) (r : UpdateRecord) : Except SrpError Host :=
  if !isSubDomainOf r.name aDomain then .error .security
  else if r.rtype != kTypePtr then .ok host
  else
    match r.rdata with
    | .ptr instanceName =>
      if !(r.rclass == kClassNone || r.rclass == aZoneClass) then .error .failed
      else
        let sub := findSubTypeBase r.name
        let isSubType := sub.isSome
        let baseName := sub.getD r.name.data
        if !baseName.isSuffixOf instanceName.data then .error .failed
        else if (host.findService r.name instanceName).isSome then .error .failed
        else .ok ((host.addNewService r.name instanceName isSubType aRxTime).modifyHeadService
                   (fun s => { s with isDeleted := r.rclass == kClassNone }))
    | _ => .error .parse

def processServiceDiscoveryInstructions (aDomain : String) (aZoneClass aRxTime : Nat)
    (host : Host) (records : List UpdateRecord) : Except SrpError Host :=
  foldRecords (processServiceDiscoveryRecord aDomain aZoneClass aRxTime) host records

/-! ## Pass 2: Host Description instruction -/

def processHostDescriptionRecord (aZoneClass : Nat) (host : Host) (r : UpdateRecord) :
    Except SrpError Host :=
  if r.rclass == kClassAny then
    if !isValidDeleteAllRecord r then .error .failed
    else if (host.findServiceDescription r.name).isSome then .ok host
    else
      match host.setFullName r.name with
      | .error e => .error e
      | .ok h2 => .ok h2.clearResources
  else if r.rtype == kTypeAaaa then
    if r.rclass != aZoneClass then .error .failed
    else
      match host.setFullName r.name with
      | .error e => .error e
      | .ok h2 =>
        match r.rdata with
        | .aaaa addr => .ok (h2.addIp6Address addr)
        | _ => .error .parse
  else if r.rtype == kTypeKey then
    if r.rclass != aZoneClass then .error .failed
    else
      match r.rdata with
      | .key k =>
        match host.key with
        | some k0 => if k0 == k then .ok host else .error .security
        | none => .ok { host with key := some k }
      | _ => .error .parse
  else .ok host

def processHostDescriptionInstruction (aZoneClass : Nat) (host : Host)
    (records : List UpdateRecord) : Except SrpError Host :=
  match foldRecords (processHostDescriptionRecord aZoneClass) host records with
  | .error e => .error e
  | .ok h =>
    if h.fullName.isNone then .error .failed
    else if h.key.isNone then .error .failed
    else .ok h

/-! ## Pass 3: Service Description instructions -/

def processServiceDescriptionRecord (aDomain : String) (aZoneClass aRxTime : Nat)
    (host : Host) (r : UpdateRecord) : Except SrpError Host :=
  if r.rclass == kClassAny then
    if !isValidDeleteAllRecord r then .error .failed
    else if (host.findServiceDescription r.name).isSome then
      .ok (host.modifyDesc r.name (fun d =>
            { d.clearResources with updateTime := some aRxTime }))
    else .ok host
  else if r.rtype == kTypeSrv then
    if r.rclass != aZoneClass then .error .failed
    else
      match r.rdata with
      | .srv priority weight port target =>
        if !isSubDomainOf r.name aDomain then .error .security
        else if !hostMatches host target then .error .failed
        else
          match host.findServiceDescription r.name with
          | none => .error .failed
          | some d =>
            if d.port != 0 then .error .failed
            else .ok (host.modifyDesc r.name (fun d2 =>
                  { d2 with priority := priority, weight := weight, port := port,
                            updateTime := some aRxTime }))
      | _ => .error .parse
  else if r.rtype == kTypeTxt then
    if r.rclass != aZoneClass then .error .failed
    else
      match host.findServiceDescription r.name with
      | none => .error .failed
      | some _ =>
        match r.rdata with
        | .txt data =>
          if !verifyTxtData data then .error .parse
          else .ok (host.modifyDesc r.name (fun d => { d with txtData := some data }))
        | _ => .error .parse
  else .ok host

def processServiceDescriptionRecords (aDomain : String) (aZoneClass aRxTime : Nat)
    (host : Host) (records : List UpdateRecord) : Except SrpError Host :=
  foldRecords (processServiceDescriptionRecord aDomain aZoneClass aRxTime) host records

/-- The end-of-pass verification over all service descriptions. -/
def serviceDescriptionChecksOk (aRxTime : Nat) (h : Host) : Bool :=
  h.serviceDescriptions.all (fun d =>
    d.updateTime == some aRxTime && ((d.port == 0) == d.txtData.isNone))

def processServiceDescriptionInstructions (aDomain : String) (aZoneClass aRxTime : Nat)
    (host : Host) (records : List UpdateRecord) : Except SrpError Host :=
  match processServiceDescriptionRecords aDomain aZoneClass aRxTime host records with
  | .error e => .error e
  | .ok h => if serviceDescriptionChecksOk aRxTime h then .ok h else .error .failed

/-! ## Name-conflict check and the Update section driver -/

def hasNameConflictsWith (aHosts : List Host) (aHost : Host) : Bool :=
  (match aHost.fullName with
   | some name =>
     match findHost aHosts name with
     | some existingHost => existingHost.key != aHost.key
     | none => false
   | none => false)
  || aHost.serviceDescriptions.any (fun d =>
       aHosts.any (fun host =>
         (host.findServiceDescription d.instanceName).isSome && host.key != aHost.key))

def processUpdateSection (aHosts : List Host) (aDomain : String) (aZoneClass aRxTime : Nat)
    (host : Host) (records : List UpdateRecord) : Except SrpError Host :=
  match processServiceDiscoveryInstructions aDomain aZoneClass aRxTime host records with
  | .error e => .error e
  | .ok h1 =>
    match processHostDescriptionInstruction aZoneClass h1 records with
    | .error e => .error e
    | .ok h2 =>
      match processServiceDescriptionInstructions aDomain aZoneClass aRxTime h2 records with
      | .error e => .error e
      | .ok h3 =>
        if hasNameConflictsWith aHosts h3 then .error .duplicated else .ok h3

/-! ## Zone and Additional sections -/

structure ZoneSection where
  zoneRecordCount : Nat
  zoneName : String
  zoneType : Nat
  zoneClass : Nat
deriving DecidableEq, Repr

def processZoneSection (aDomain : String) (z : ZoneSection) : Except SrpError Nat :=
  if z.zoneRecordCount != 1 then .error .parse
  else if z.zoneName != aDomain then .error .security
  else if z.zoneType != kTypeSoa then .error .parse
  else .ok z.zoneClass

structure LeaseOption where
  leaseInterval : Nat
  keyLeaseInterval : Nat
deriving DecidableEq, Repr

/-- Modelled from the spec: `Dns::LeaseOption::IsValid` lives in the external
DNS types; per the spec invariant `lease_seconds ≤ key_lease_seconds`, a
lease option is valid when the lease does not exceed the key lease. -/
def LeaseOption.isValid (o : LeaseOption) : Bool :=
  decide (o.leaseInterval ≤ o.keyLeaseInterval)

/-- SIG(0) view: the external crypto verdicts are carried as fields. -/
structure SigInfo where
  algorithmEcdsaP256 : Bool
  typeCovered : Nat
  signatureLengthOk : Bool
  signatureVerifies : Bool
deriving DecidableEq, Repr

structure AdditionalSection where
  additionalRecordCount : Nat
  optRecord : LeaseOption
  optSizeOk : Bool := true
  sig : SigInfo
deriving DecidableEq, Repr

def processAdditionalSection (addl : AdditionalSection) (host : Host) :
    Except SrpError Host :=
  if addl.additionalRecordCount != 2 then .error .failed
  else if !addl.optRecord.isValid then .error .failed
  else if !addl.optSizeOk then .error .parse
  else
    let host := { host with lease := addl.optRecord.leaseInterval,
                            keyLease := addl.optRecord.keyLeaseInterval }
    if host.lease != 0 && host.addresses.isEmpty then .error .failed
    else if !addl.sig.algorithmEcdsaP256 then .error .failed
    else if addl.sig.typeCovered != 0 then .error .failed
    else if !addl.sig.signatureLengthOk then .error .parse
    else if !addl.sig.signatureVerifies then .error .security
    else .ok host

/-! ## Registry merge and commit -/

/-- Adopt an existing service matching the candidate service or allocate a
fresh one, then mark it live, committed, and freshly updated
(`MergeServicesAndResourcesFrom`, non-deleted case). -/
def mergeAdopt (now : Nat) (ex : Host) (svc : Service) : Host :=
  if (ex.findService svc.serviceName svc.instanceName).isSome then
    ex.modifyService svc.serviceName svc.instanceName
      (fun s => { s with isDeleted := false, isCommitted := true, updateTime := now })
  else
    (ex.addNewService svc.serviceName svc.instanceName svc.isSubType svc.updateTime).modifyHeadService
      (fun s => { s with isDeleted := false, isCommitted := true, updateTime := now })

/-- `Description::TakeResourcesFrom` applied to the adopted service's
description (base types only). -/
def mergeTakeResources (cand : Host) (now : Nat) (ex2 : Host) (svc : Service) : Host :=
  match cand.findServiceDescription svc.instanceName with
  | some srcDesc =>
    ex2.modifyDesc svc.instanceName (fun d =>
      { d with txtData := srcDesc.txtData, priority := srcDesc.priority,
               weight := srcDesc.weight, port := srcDesc.port,
               lease := srcDesc.lease, keyLease := srcDesc.keyLease,
               updateTime := some now })
  | none => ex2

/-- One iteration of `Host::MergeServicesAndResourcesFrom` over a candidate
service. -/
def mergeStep (cand : Host) (now : Nat) (ex : Host) (svc : Service) : Host :=
  if svc.isDeleted then
    ex.modifyService svc.serviceName svc.instanceName (fun s => { s with isDeleted := true })
  else if svc.isSubType then mergeAdopt now ex svc
  else mergeTakeResources cand now (mergeAdopt now ex svc) svc

def Host.mergeFrom (ex : Host) (cand : Host) (now : Nat) : Host :=
  cand.services.foldl (mergeStep cand now)
    { ex with addresses := cand.addresses, key := cand.key, lease := cand.lease,
              keyLease := cand.keyLease, updateTime := now }

structure ResponseMsg where
  code : DnsResponse
  leaseEcho : Option (Nat × Nat) := none
deriving DecidableEq, Repr

/-- `Server::CommitSrpUpdate`: returns the new registry and the response sent
to a direct client (`none` for a replication update). -/
def commitSrpUpdate (aError : Option SrpError) (aHost : Host) (direct : Bool)
    (cfg : LeaseConfig) (now : Nat) (hosts : List Host) :
    List Host × Option ResponseMsg :=
  match aError with
  | some e =>
    (hosts, if direct then some { code := errorToDnsResponseCode (some e) } else none)
  | none =>
    let hostLease := aHost.lease
    let hostKeyLease := aHost.keyLease
    let grantedLease := cfg.grantLease hostLease
    let grantedKeyLease := cfg.grantKeyLease hostKeyLease
    let descs := aHost.serviceDescriptions.map
      (fun d => { d with lease := grantedLease, keyLease := grantedKeyLease })
    let host := { aHost with lease := grantedLease, keyLease := grantedKeyLease,
                             serviceDescriptions := descs }
    let hostsAfter :=
      match host.fullName with
      | none => hosts
      | some name =>
        if grantedLease = 0 then
          if grantedKeyLease = 0 then
            removeFirstHost name hosts
          else
            modifyFirst (fun h => hostMatches h name)
              (fun ex => { ex with keyLease := grantedKeyLease, lease := 0, addresses := [],
                                   services := ex.services.map (fun s => { s with isDeleted := true }) })
              hosts
        else
          match findHost hosts name with
          | some _ =>
            modifyFirst (fun h => hostMatches h name) (fun ex => ex.mergeFrom host now) hosts
          | none =>
            { host with services :=
                host.services.map (fun s => { s with isCommitted := true }) } :: hosts
    let response :=
      if direct then
        some (if grantedLease = hostLease ∧ grantedKeyLease = hostKeyLease
              then { code := DnsResponse.success }
              else { code := DnsResponse.success,
                     leaseEcho := some (grantedLease, grantedKeyLease) })
      else none
    (hostsAfter, response)

/-! ## Pending-update coordination -/

structure PeerInfo where
  addr : Nat
  port : Nat
deriving DecidableEq, Repr

structure MessageMetadata where
  messageId : Nat
  messageInfo : Option PeerInfo
  rxTime : Nat
deriving DecidableEq, Repr

def MessageMetadata.isDirectRxFromClient (m : MessageMetadata) : Bool :=
  m.messageInfo.isSome

/-- `Server::UpdateMetadata` (an in-flight update request). -/
structure UpdateMetadata where
  expireTime : Nat
  messageId : Nat
  id : Nat
  leaseConfig : LeaseConfig
  host : Host
  isDirectRxFromClient : Bool
  peer : PeerInfo := { addr := 0, port := 0 }
deriving DecidableEq, Repr

def findOutstandingUpdate (updates : List UpdateMetadata) (m : MessageMetadata) :
    Option UpdateMetadata :=
  match m.messageInfo with
  | none => none
  | some info =>
    updates.find? (fun u =>
      u.messageId == m.messageId && u.peer.addr == info.addr && u.peer.port == info.port)

/-! ## HandleUpdate and ProcessDnsUpdate -/

/-- One iteration of the `HandleUpdate` loop appending a missing service of
the existing host to the removal candidate. -/
def extendStep (aRxTime : Nat) (cand : Host) (svc : Service) : Host :=
  if svc.isDeleted then cand
  else if (cand.findService svc.serviceName svc.instanceName).isSome then cand
  else
    ((cand.addNewService svc.serviceName svc.instanceName svc.isSubType aRxTime).modifyDesc
        svc.instanceName (fun d => { d with updateTime := some aRxTime })).modifyHeadService
      (fun s => { s with isDeleted := true })

/-- The host-removal completion performed by `Server::HandleUpdate` before
the update handler is notified. -/
def handleUpdateExtend (hosts : List Host) (host : Host) (aRxTime : Nat) : Host :=
  if host.lease != 0 then host
  else
    let host := host.clearResources
    match host.fullName with
    | none => host
    | some name =>
      match findHost hosts name with
      | none => host
      | some existingHost => existingHost.services.foldl (extendStep aRxTime) host

structure ProcessOutcome where
  hosts : List Host
  outstanding : List UpdateMetadata
  response : Option ResponseMsg
  notifiedUpdateId : Option Nat
deriving DecidableEq, Repr

def errResponseOpt (direct : Bool) (e : Option SrpError) : Option ResponseMsg :=
  if direct then some { code := errorToDnsResponseCode e } else none

structure DnsUpdateMessage where
  messageId : Nat
  prerequisiteCount : Nat
  zone : ZoneSection
  updateRecords : List UpdateRecord
  additional : AdditionalSection
deriving DecidableEq, Repr

def handleUpdate (hosts : List Host) (outstanding : List UpdateMetadata)
    (cfg : LeaseConfig) (handlerPresent : Bool) (msg : DnsUpdateMessage)
    (minfo : Option PeerInfo) (aRxTime now freshId : Nat) (host : Host) : ProcessOutcome :=
  let host := handleUpdateExtend hosts host aRxTime
  if handlerPresent then
    { hosts := hosts,
      outstanding :=
        { expireTime := now + kDefaultEventsHandlerTimeout, messageId := msg.messageId,
          id := freshId, leaseConfig := cfg, host := host,
          isDirectRxFromClient := minfo.isSome,
          peer := minfo.getD { addr := 0, port := 0 } } :: outstanding,
      response := none, notifiedUpdateId := some freshId }
  else
    let committed := commitSrpUpdate none host minfo.isSome cfg now hosts
    { hosts := committed.1, outstanding := outstanding, response := committed.2,
      notifiedUpdateId := none }

/-- The continuation of `ProcessDnsUpdate` after the zone section and the
duplicate-suppression check. -/
def processDnsUpdateCore (hosts : List Host) (outstanding : List UpdateMetadata)
    (aDomain : String) (cfg : LeaseConfig) (handlerPresent : Bool)
    (msg : DnsUpdateMessage) (minfo : Option PeerInfo) (aRxTime now freshId : Nat)
    (aZoneClass : Nat) : ProcessOutcome :=
  if msg.prerequisiteCount != 0 then
    { hosts := hosts, outstanding := outstanding,
      response := errResponseOpt minfo.isSome (some .failed), notifiedUpdateId := none }
  else
    match processUpdateSection hosts aDomain aZoneClass aRxTime (initialHost aRxTime)
            msg.updateRecords with
    | .error e =>
      { hosts := hosts, outstanding := outstanding,
        response := errResponseOpt minfo.isSome (some e), notifiedUpdateId := none }
    | .ok host =>
      match processAdditionalSection msg.additional host with
      | .error e =>
        { hosts := hosts, outstanding := outstanding,
          response := errResponseOpt minfo.isSome (some e), notifiedUpdateId := none }
      | .ok host =>
        handleUpdate hosts outstanding cfg handlerPresent msg minfo aRxTime now freshId host

def processDnsUpdate (hosts : List Host) (outstanding : List UpdateMetadata)
    (aDomain : String) (cfg : LeaseConfig) (handlerPresent : Bool)
    (msg : DnsUpdateMessage) (minfo : Option PeerInfo) (aRxTime now freshId : Nat) :
    ProcessOutcome :=
  match processZoneSection aDomain msg.zone with
  | .error e =>
    { hosts := hosts, outstanding := outstanding,
      response := errResponseOpt minfo.isSome (some e), notifiedUpdateId := none }
  | .ok aZoneClass =>
    if (findOutstandingUpdate outstanding
          { messageId := msg.messageId, messageInfo := minfo, rxTime := aRxTime }).isSome then
      { hosts := hosts, outstanding := outstanding, response := none,
        notifiedUpdateId := none }
    else
      processDnsUpdateCore hosts outstanding aDomain cfg handlerPresent msg minfo
        aRxTime now freshId aZoneClass

/-! ## Derived invariants used by the claims -/

/-- Spec invariant 1 on a single host: `lease ≤ key_lease` and a live host
has at least one address. -/
def Host.leaseInvariant (h : Host) : Bool :=
  decide (h.lease ≤ h.keyLease) && (h.lease == 0 || !h.addresses.isEmpty)

def registryLeaseInvariant (hosts : List Host) : Bool :=
  hosts.all Host.leaseInvariant

/-- Service pairs `(service name, instance name)` distinct up to DNS name
matching; committed hosts satisfy this for their service lists. -/
def servicePairDistinct (a b : Service) : Prop :=
  ¬(dnsMatch a.serviceName b.serviceName = true ∧ dnsMatch a.instanceName b.instanceName = true)

instance (a b : Service) : Decidable (servicePairDistinct a b) := by
  unfold servicePairDistinct
  infer_instance

/-! ## Concrete instances used by witnesses and counterexamples -/

def exDomain : String := "default.service.arpa."
def exHostName : String := "printer.default.service.arpa."
def exSvcName : String := "_ipps._tcp.default.service.arpa."
def exInstName : String := "my-printer._ipps._tcp.default.service.arpa."
def exAddr : Ip6Address := { addrId := 1 }

def exLeaseConfig : LeaseConfig :=
  { minLease := 60, maxLease := 7200, minKeyLease := 120, maxKeyLease := 14400 }

def exLeaseConfig2 : LeaseConfig :=
  { minLease := 30, maxLease := 3600, minKeyLease := 60, maxKeyLease := 7200 }

def exRunningConfig : ServerConfig :=
  { state := .running, addressMode := .unicast, anycastSequenceNumber := 0,
    domain := kDefaultDomain, leaseConfig := exLeaseConfig }

/-- A removal candidate (lease 0, key lease 0) naming `exHostName`. -/
def exRemovalHost : Host :=
  { fullName := some exHostName, key := some 7, lease := 0, keyLease := 0, updateTime := 5 }

/-- A well-formed zone section for the example domain. -/
def exZone : ZoneSection :=
  { zoneRecordCount := 1, zoneName := exDomain, zoneType := kTypeSoa, zoneClass := 1 }

def exAdditional : AdditionalSection :=
  { additionalRecordCount := 2,
    optRecord := { leaseInterval := 3600, keyLeaseInterval := 7200 },
    sig := { algorithmEcdsaP256 := true, typeCovered := 0, signatureLengthOk := true,
             signatureVerifies := true } }

/-- An in-flight update request from peer (addr 1, port 2) with DNS id 9. -/
def exOutstanding : UpdateMetadata :=
  { expireTime := 100, messageId := 9, id := 42, leaseConfig := exLeaseConfig,
    host := initialHost 5, isDirectRxFromClient := true, peer := { addr := 1, port := 2 } }

/-- A retransmission of message id 9 from the same peer. -/
def exDupMessage : DnsUpdateMessage :=
  { messageId := 9, prerequisiteCount := 0, zone := exZone, updateRecords := [],
    additional := exAdditional }

/-- A candidate host after passes 1 and 2 on the example message: one base
service with a fresh description, one address, name and key set. -/
def c4Host : Host :=
  { fullName := some exHostName, addresses := [exAddr], key := some 7, updateTime := 5,
    services := [{ serviceName := exSvcName, instanceName := exInstName, isSubType := false,
                   isDeleted := false, isCommitted := false, updateTime := 5 }],
    serviceDescriptions := [{ instanceName := exInstName }] }

def c4Recs : List UpdateRecord :=
  [ { name := exInstName, rtype := kTypeSrv, rclass := 1, rdata := .srv 0 0 9100 exHostName },
    { name := exInstName, rtype := kTypeTxt, rclass := 1, rdata := .txt [2, 114, 112] } ]

/-- The candidate after running the Service Description pass on `c4Recs`. -/
def c4OkHost : Host :=
  { c4Host with serviceDescriptions :=
      [{ instanceName := exInstName, priority := 0, weight := 0, port := 9100,
         lease := 0, keyLease := 0, updateTime := some 5, txtData := some [2, 114, 112] }] }

/-- A candidate whose description was never touched by the pass (update time
still the distant-past sentinel). -/
def c4BadHost : Host :=
  { fullName := some exHostName, key := some 7, updateTime := 5,
    serviceDescriptions := [{ instanceName := exInstName }] }

/-- Update section with two SRV records for the same service description,
the first carrying port 0. -/
def c7Recs : List UpdateRecord :=
  [ { name := exSvcName, rtype := kTypePtr, rclass := 1, rdata := .ptr exInstName },
    { name := exHostName, rtype := kTypeAaaa, rclass := 1, rdata := .aaaa exAddr },
    { name := exHostName, rtype := kTypeKey, rclass := 1, rdata := .key 7 },
    { name := exInstName, rtype := kTypeSrv, rclass := 1, rdata := .srv 0 0 0 exHostName },
    { name := exInstName, rtype := kTypeSrv, rclass := 1, rdata := .srv 1 1 9100 exHostName },
    { name := exInstName, rtype := kTypeTxt, rclass := 1, rdata := .txt [2, 114, 112] } ]

def c7SrvRec : UpdateRecord :=
  { name := exInstName, rtype := kTypeSrv, rclass := 1, rdata := .srv 1 1 9100 exHostName }

/-- `c4Host` with the description's port already nonzero. -/
def c7HostPort : Host :=
  { c4Host with serviceDescriptions := [{ instanceName := exInstName, port := 443 }] }

/-- The candidate produced by the Additional section on `c4Host` with the
example lease option (3600, 7200). -/
def c2Host : Host := { c4Host with lease := 3600, keyLease := 7200 }

/-- Host-description-only update records (AAAA + KEY, no services). -/
def c1Recs : List UpdateRecord :=
  [ { name := exHostName, rtype := kTypeAaaa, rclass := 1, rdata := .aaaa exAddr },
    { name := exHostName, rtype := kTypeKey, rclass := 1, rdata := .key 7 } ]

/-- The candidate after passes 1 and 2 on `c1Recs`. -/
def c1Host2 : Host :=
  { fullName := some exHostName, addresses := [exAddr], key := some 7, updateTime := 5 }

/-- A committed host owning `exHostName` under a different key (99). -/
def c1ExistingHost : Host :=
  { fullName := some exHostName, addresses := [{ addrId := 9 }], key := some 99,
    lease := 3600, keyLease := 7200, updateTime := 0 }

def c1Registry : List Host := [c1ExistingHost]

def c1Msg : DnsUpdateMessage :=
  { messageId := 9, prerequisiteCount := 0, zone := exZone, updateRecords := c1Recs,
    additional := exAdditional }

/-- A committed host with one live base service under `exInstName`. -/
def c8Existing : Host :=
  { fullName := some exHostName, addresses := [{ addrId := 9 }], key := some 7,
    lease := 3600, keyLease := 7200, updateTime := 0,
    services := [{ serviceName := exSvcName, instanceName := exInstName, isSubType := false,
                   isDeleted := false, isCommitted := true, updateTime := 0 }],
    serviceDescriptions := [{ instanceName := exInstName, port := 9100,
                              updateTime := some 0, txtData := some [2, 114, 112] }] }

def c8Svc : Service :=
  { serviceName := exSvcName, instanceName := exInstName, isSubType := false,
    isDeleted := false, isCommitted := true, updateTime := 0 }

end SrpServer

/-! ## Helper lemmas -/

namespace SrpServer

theorem mem_modifyFirst {α : Type} (p : α → Bool) (f : α → α) (l : List α) (x : α)
    (hx : x ∈ modifyFirst p f l) : x ∈ l ∨ ∃ y, y ∈ l ∧ x = f y := by
  induction l with
  | nil => cases hx
  | cons a rest ih =>
    unfold modifyFirst at hx
    split at hx
    · rcases List.mem_cons.mp hx with h | h
      · exact Or.inr ⟨a, List.mem_cons_self a rest, h⟩
      · exact Or.inl (List.mem_cons_of_mem a h)
    · rcases List.mem_cons.mp hx with h | h
      · exact Or.inl (by simp [h])
      · rcases ih h with h2 | ⟨y, hy, hxy⟩
        · exact Or.inl (List.mem_cons_of_mem a h2)
        · exact Or.inr ⟨y, List.mem_cons_of_mem a hy, hxy⟩

theorem mem_removeFirstHost (aName : String) (l : List Host) (x : Host)
    (hx : x ∈ removeFirstHost aName l) : x ∈ l := by
  induction l with
  | nil => cases hx
  | cons a rest ih =>
    unfold removeFirstHost at hx
    split at hx
    · exact List.mem_cons_of_mem a hx
    · rcases List.mem_cons.mp hx with h | h
      · exact List.mem_cons.mpr (Or.inl h)
      · exact List.mem_cons_of_mem a (ih h)

theorem removeFirstHost_of_find_none (aName : String) (l : List Host)
    (hnone : findHost l aName = none) : removeFirstHost aName l = l := by
  induction l with
  | nil => rfl
  | cons a rest ih =>
    rw [findHost, List.find?_cons] at hnone
    unfold removeFirstHost
    split
    · simp_all
    · rw [ih (by simp_all [findHost])]

theorem registryLeaseInvariant_iff (hosts : List Host) :
    registryLeaseInvariant hosts = true ↔ ∀ h ∈ hosts, h.leaseInvariant = true := by
  simp [registryLeaseInvariant, List.all_eq_true]

end SrpServer

/-! ## Claim theorems -/

namespace SrpServer

/-- C6 (counterexample): `Server::SetLeaseConfig` carries no server-state
check, so with the server state Running a valid lease configuration is
accepted and the configuration changes, contradicting the claim that every
configuration setter returns InvalidState outside Disabled. -/
theorem setLeaseConfig_ignores_state_cex :
    exRunningConfig.state ≠ ServerState.disabled
    ∧ setLeaseConfig exRunningConfig exLeaseConfig2 =
        .ok { exRunningConfig with leaseConfig := exLeaseConfig2 }
    ∧ exRunningConfig.leaseConfig ≠ exLeaseConfig2 := by
  refine ⟨by decide, ?_, by decide⟩
  rw [setLeaseConfig, if_pos (by decide)]

/-- C6 (amended): when the server state is not Disabled, the address-mode,
anycast-sequence-number and domain setters return InvalidState and leave the
configuration unchanged; `SetLeaseConfig` ignores the server state and only
validates its argument. -/
theorem config_setters_state_guard (s : ServerConfig) (m : AddressMode) (n : Nat)
    (d : String) (c : LeaseConfig) (hs : s.state ≠ ServerState.disabled) :
    setAddressMode s m = .error .invalidState
    ∧ setAnycastModeSequenceNumber s n = .error .invalidState
    ∧ setDomain s d = .error .invalidState
    ∧ (c.isValid = true → setLeaseConfig s c = .ok { s with leaseConfig := c }) := by
  have hb : (s.state != ServerState.disabled) = true := by simpa [bne_iff_ne] using hs
  refine ⟨?_, ?_, ?_, fun hv => ?_⟩
  · rw [setAddressMode, if_pos hb]
  · rw [setAnycastModeSequenceNumber, if_pos hb]
  · rw [setDomain, if_pos hb]
  · rw [setLeaseConfig, if_pos hv]

/-- C6 (witness): the amended statement evaluated at a Running server. -/
theorem config_setters_state_guard_witness :
    setAddressMode exRunningConfig .anycast = .error .invalidState
    ∧ setAnycastModeSequenceNumber exRunningConfig 3 = .error .invalidState
    ∧ setDomain exRunningConfig "example.com" = .error .invalidState
    ∧ setLeaseConfig exRunningConfig exLeaseConfig2 =
        .ok { exRunningConfig with leaseConfig := exLeaseConfig2 } := by
  obtain ⟨h1, h2, h3, h4⟩ :=
    config_setters_state_guard exRunningConfig .anycast 3 "example.com" exLeaseConfig2
      (by decide)
  exact ⟨h1, h2, h3, h4 (by decide)⟩

/-- C9: a committed update with lease 0 and key lease 0 whose host name is
absent from the registry leaves the registry unchanged (removal of a null
match is a no-op) and answers a direct client with a plain Success
response. -/
theorem remove_absent_host_success (host : Host) (cfg : LeaseConfig) (hosts : List Host)
    (now : Nat) (aName : String)
    (hname : host.fullName = some aName)
    (hlease : host.lease = 0) (hkey : host.keyLease = 0)
    (habsent : findHost hosts aName = none) :
    commitSrpUpdate none host true cfg now hosts =
      (hosts, some { code := DnsResponse.success }) := by
  unfold commitSrpUpdate
  simp only [hname, hlease, hkey, LeaseConfig.grantLease, LeaseConfig.grantKeyLease,
    if_pos rfl, removeFirstHost_of_find_none aName hosts habsent, and_self, if_pos]

/-- C9 (witness): removing `exRemovalHost` from an empty registry. -/
theorem remove_absent_host_success_witness :
    commitSrpUpdate none exRemovalHost true exLeaseConfig 6 [] =
      ([], some { code := DnsResponse.success }) :=
  remove_absent_host_success exRemovalHost exLeaseConfig [] 6 exHostName rfl rfl rfl rfl

/-- C10: an update processed with no message info (not received directly
from a client) never matches an outstanding update, so it is never dropped
as a duplicate even when its DNS message id equals that of an in-flight
update request: processing continues past the duplicate-suppression check. -/
theorem replication_not_dropped (outstanding : List UpdateMetadata) (meta : MessageMetadata)
    (hosts : List Host) (aDomain : String) (cfg : LeaseConfig) (hp : Bool)
    (msg : DnsUpdateMessage) (aRxTime now freshId aZoneClass : Nat) (u : UpdateMetadata)
    (hnone : meta.messageInfo = none)
    (hmem : u ∈ outstanding) (hid : u.messageId = msg.messageId)
    (hzone : processZoneSection aDomain msg.zone = .ok aZoneClass) :
    findOutstandingUpdate outstanding meta = none
    ∧ processDnsUpdate hosts outstanding aDomain cfg hp msg none aRxTime now freshId
      = processDnsUpdateCore hosts outstanding aDomain cfg hp msg none aRxTime now
          freshId aZoneClass := by
  constructor
  · rw [findOutstandingUpdate, hnone]
  · rw [processDnsUpdate, hzone]
    rw [show findOutstandingUpdate outstanding
          { messageId := msg.messageId, messageInfo := none, rxTime := aRxTime } = none
        from rfl]
    rfl

/-- C5: a direct-client message whose zone section validates and whose
(DNS id, peer address, peer port) match an in-flight update request is
silently dropped: no response, no registry change, and no new update
request. -/
theorem duplicate_update_dropped (hosts : List Host) (outstanding : List UpdateMetadata)
    (aDomain : String) (cfg : LeaseConfig) (hp : Bool) (msg : DnsUpdateMessage)
    (info : PeerInfo) (aRxTime now freshId aZoneClass : Nat) (u : UpdateMetadata)
    (hzone : processZoneSection aDomain msg.zone = .ok aZoneClass)
    (hfound : findOutstandingUpdate outstanding
        { messageId := msg.messageId, messageInfo := some info, rxTime := aRxTime } = some u) :
    processDnsUpdate hosts outstanding aDomain cfg hp msg (some info) aRxTime now freshId
      = { hosts := hosts, outstanding := outstanding, response := none,
          notifiedUpdateId := none } := by
  rw [processDnsUpdate, hzone, hfound]
  rfl

/-- C3: on the success path for a direct client, the lease and key lease are
granted by `GrantLease`/`GrantKeyLease` (zero stays zero, otherwise clamp to
the configured bounds), and the Success response carries the granted pair in
an Update-Lease OPT exactly when it differs from the requested pair. -/
theorem lease_grant_and_echo (aHost : Host) (cfg : LeaseConfig) (hosts : List Host)
    (now : Nat) :
    (commitSrpUpdate none aHost true cfg now hosts).2 =
      some (if cfg.grantLease aHost.lease = aHost.lease
               ∧ cfg.grantKeyLease aHost.keyLease = aHost.keyLease
            then { code := DnsResponse.success }
            else { code := DnsResponse.success,
                   leaseEcho := some (cfg.grantLease aHost.lease,
                                      cfg.grantKeyLease aHost.keyLease) })
    ∧ (∀ l, cfg.grantLease l = if l = 0 then 0 else max cfg.minLease (min cfg.maxLease l))
    ∧ (∀ k, cfg.grantKeyLease k =
         if k = 0 then 0 else max cfg.minKeyLease (min cfg.maxKeyLease k)) := by
  refine ⟨?_, fun l => rfl, fun k => rfl⟩
  unfold commitSrpUpdate
  simp only [if_pos]

end SrpServer

namespace SrpServer

theorem descCheck_iff (aRxTime : Nat) (d : ServiceDescription) :
    (d.updateTime == some aRxTime && ((d.port == 0) == d.txtData.isNone)) = true ↔
    (d.updateTime = some aRxTime ∧ (d.port = 0 ↔ d.txtData = none)) := by
  rw [Bool.and_eq_true, beq_iff_eq]
  apply and_congr_right
  intro _
  rw [beq_iff_eq, Bool.eq_iff_iff, beq_iff_eq, Option.isNone_iff_eq_none]

theorem serviceDescriptionChecksOk_iff (aRxTime : Nat) (h : Host) :
    serviceDescriptionChecksOk aRxTime h = true ↔
    ∀ d ∈ h.serviceDescriptions,
      d.updateTime = some aRxTime ∧ (d.port = 0 ↔ d.txtData = none) := by
  rw [serviceDescriptionChecksOk, List.all_eq_true]
  exact forall_congr' (fun d => forall_congr' (fun _ => descCheck_iff aRxTime d))

/-- C5 (witness): a concrete retransmission (id 9 from peer (1,2)) is
dropped while the matching request is in flight. -/
theorem duplicate_update_dropped_witness :
    processDnsUpdate [] [exOutstanding] exDomain exLeaseConfig true exDupMessage
        (some { addr := 1, port := 2 }) 5 6 43
      = { hosts := [], outstanding := [exOutstanding], response := none,
          notifiedUpdateId := none } :=
  duplicate_update_dropped [] [exOutstanding] exDomain exLeaseConfig true exDupMessage
    { addr := 1, port := 2 } 5 6 43 1 exOutstanding (by decide) (by decide)

/-- C10 (witness): the same message processed as replication input (no
message info) is not matched against the in-flight request. -/
theorem replication_not_dropped_witness :
    findOutstandingUpdate [exOutstanding]
        { messageId := 9, messageInfo := none, rxTime := 5 } = none
    ∧ processDnsUpdate [] [exOutstanding] exDomain exLeaseConfig true exDupMessage
        none 5 6 43
      = processDnsUpdateCore [] [exOutstanding] exDomain exLeaseConfig true exDupMessage
          none 5 6 43 1 :=
  replication_not_dropped [exOutstanding]
    { messageId := 9, messageInfo := none, rxTime := 5 }
    [] exDomain exLeaseConfig true exDupMessage 5 6 43 1 exOutstanding rfl
    (by decide) (by decide) (by decide)

/-- C4: when the Service Description pass returns success every service
description on the candidate has `update_time = rx_time` and
`port = 0 ↔ txt_data empty`; if the record walk succeeds but some
description violates either condition, the pass returns Failed. -/
theorem service_description_post (aDomain : String) (aZoneClass aRxTime : Nat)
    (host : Host) (records : List UpdateRecord) :
    (∀ h1, processServiceDescriptionInstructions aDomain aZoneClass aRxTime host records
        = .ok h1 →
      ∀ d ∈ h1.serviceDescriptions,
        d.updateTime = some aRxTime ∧ (d.port = 0 ↔ d.txtData = none))
    ∧ (∀ h2, processServiceDescriptionRecords aDomain aZoneClass aRxTime host records
        = .ok h2 →
      (∃ d ∈ h2.serviceDescriptions,
        ¬(d.updateTime = some aRxTime ∧ (d.port = 0 ↔ d.txtData = none))) →
      processServiceDescriptionInstructions aDomain aZoneClass aRxTime host records
        = .error .failed) := by
  constructor
  · intro h1 hok
    have hch : serviceDescriptionChecksOk aRxTime h1 = true := by
      rw [processServiceDescriptionInstructions] at hok
      rcases hfold : processServiceDescriptionRecords aDomain aZoneClass aRxTime host records
        with e | h2
      · rw [hfold] at hok; cases hok
      · rw [hfold] at hok
        by_cases hchk : serviceDescriptionChecksOk aRxTime h2 = true
        · have heq : (Except.ok h2 : Except SrpError Host) = Except.ok h1 := by
            simpa [hchk] using hok
          cases heq
          exact hchk
        · simp [hchk] at hok
    exact (serviceDescriptionChecksOk_iff aRxTime h1).mp hch
  · intro h2 hfold hviol
    rw [processServiceDescriptionInstructions, hfold]
    show (if serviceDescriptionChecksOk aRxTime h2 = true then Except.ok h2
          else Except.error SrpError.failed) = Except.error SrpError.failed
    rw [if_neg]
    intro hchk
    obtain ⟨d, hd, hnd⟩ := hviol
    exact hnd ((serviceDescriptionChecksOk_iff aRxTime h2).mp hchk d hd)

/-- C4 (witness): the post-condition holds on a concrete successful pass,
and a violating description makes the pass return Failed. -/
theorem service_description_post_witness :
    (∀ d ∈ c4OkHost.serviceDescriptions,
      d.updateTime = some 5 ∧ (d.port = 0 ↔ d.txtData = none))
    ∧ processServiceDescriptionInstructions exDomain 1 5 c4BadHost [] = .error .failed := by
  constructor
  · exact (service_description_post exDomain 1 5 c4Host c4Recs).1 c4OkHost (by decide)
  · exact (service_description_post exDomain 1 5 c4BadHost []).2 c4BadHost (by decide)
      ⟨{ instanceName := exInstName }, by decide, by decide⟩

/-- C7 (counterexample): a message with two SRV records naming the same
candidate service description, the first carrying port 0, is accepted: the
Service Description pass does not return Failed on the second SRV, and the
whole Update-section walk succeeds. -/
theorem second_srv_accepted_cex :
    (c7Recs.countP (fun r => r.rtype == kTypeSrv && r.name == exInstName)) = 2
    ∧ exceptOk (processUpdateSection [] exDomain 1 5 (initialHost 5) c7Recs) = true
    ∧ processServiceDescriptionInstructions exDomain 1 5 c4Host c7Recs ≠ .error .failed := by
  refine ⟨by decide, by decide, by decide⟩

/-- C7 (amended): an SRV record for an existing service description is
accepted only while the description's stored port is 0: once a previous SRV
stored a nonzero port, a further SRV for the same description makes the pass
return Failed (in addition to the owner-in-domain and
target-equals-candidate-host-name checks); the first-and-only rule is
enforced through the port test, so it does not fire when the earlier SRV
carried port 0. -/
theorem srv_first_only_via_port (aDomain : String) (aZoneClass aRxTime : Nat) (host : Host)
    (r : UpdateRecord) (d : ServiceDescription) (priority weight port : Nat)
    (target : String)
    (hne : r.rclass ≠ kClassAny) (htype : r.rtype = kTypeSrv)
    (hclass : r.rclass = aZoneClass)
    (hrd : r.rdata = .srv priority weight port target)
    (hdom : isSubDomainOf r.name aDomain = true)
    (htgt : hostMatches host target = true)
    (hdesc : host.findServiceDescription r.name = some d) :
    (d.port ≠ 0 →
      processServiceDescriptionRecord aDomain aZoneClass aRxTime host r = .error .failed)
    ∧ (d.port = 0 →
      processServiceDescriptionRecord aDomain aZoneClass aRxTime host r =
        .ok (host.modifyDesc r.name (fun d2 =>
          { d2 with priority := priority, weight := weight, port := port,
                    updateTime := some aRxTime }))) := by
  have hca : (r.rclass == kClassAny) = false := by simp [hne]
  have hty : (r.rtype == kTypeSrv) = true := by simp [htype]
  have hcz : (r.rclass != aZoneClass) = false := by simp [hclass]
  constructor
  · intro hp
    have hpb : (d.port != 0) = true := by simp [hp]
    simp [processServiceDescriptionRecord, hca, hty, hcz, hrd, hdom, htgt, hdesc, hpb]
  · intro hp
    have hpb : (d.port != 0) = false := by simp [hp]
    simp [processServiceDescriptionRecord, hca, hty, hcz, hrd, hdom, htgt, hdesc, hpb]

/-- C7 (witness): the amended statement at concrete inputs: an SRV against a
description with port 443 fails; against a description with port 0 it is
stored. -/
theorem srv_first_only_via_port_witness :
    processServiceDescriptionRecord exDomain 1 5 c7HostPort c7SrvRec = .error .failed
    ∧ processServiceDescriptionRecord exDomain 1 5 c4Host c7SrvRec =
        .ok (c4Host.modifyDesc exInstName (fun d2 =>
          { d2 with priority := 1, weight := 1, port := 9100, updateTime := some 5 })) := by
  constructor
  · exact (srv_first_only_via_port exDomain 1 5 c7HostPort c7SrvRec
      { instanceName := exInstName, port := 443 } 1 1 9100 exHostName
      (by decide) rfl rfl rfl (by decide) (by decide) (by decide)).1 (by decide)
  · exact (srv_first_only_via_port exDomain 1 5 c4Host c7SrvRec
      { instanceName := exInstName } 1 1 9100 exHostName
      (by decide) rfl rfl rfl (by decide) (by decide) (by decide)).2 rfl

end SrpServer

namespace SrpServer

/-! ### Projection lemmas for the host combinators -/

@[simp] theorem clearResources_fullName (h : Host) : h.clearResources.fullName = h.fullName := rfl
@[simp] theorem clearResources_lease (h : Host) : h.clearResources.lease = h.lease := rfl
@[simp] theorem clearResources_keyLease (h : Host) : h.clearResources.keyLease = h.keyLease := rfl
@[simp] theorem clearResources_services (h : Host) : h.clearResources.services = h.services := rfl

@[simp] theorem modifyDesc_lease (h : Host) (i : String) (f : ServiceDescription → ServiceDescription) :
    (h.modifyDesc i f).lease = h.lease := rfl
@[simp] theorem modifyDesc_keyLease (h : Host) (i : String) (f : ServiceDescription → ServiceDescription) :
    (h.modifyDesc i f).keyLease = h.keyLease := rfl
@[simp] theorem modifyDesc_addresses (h : Host) (i : String) (f : ServiceDescription → ServiceDescription) :
    (h.modifyDesc i f).addresses = h.addresses := rfl
@[simp] theorem modifyDesc_services (h : Host) (i : String) (f : ServiceDescription → ServiceDescription) :
    (h.modifyDesc i f).services = h.services := rfl
@[simp] theorem modifyDesc_fullName (h : Host) (i : String) (f : ServiceDescription → ServiceDescription) :
    (h.modifyDesc i f).fullName = h.fullName := rfl

@[simp] theorem modifyService_lease (h : Host) (sn i : String) (f : Service → Service) :
    (h.modifyService sn i f).lease = h.lease := rfl
@[simp] theorem modifyService_keyLease (h : Host) (sn i : String) (f : Service → Service) :
    (h.modifyService sn i f).keyLease = h.keyLease := rfl
@[simp] theorem modifyService_addresses (h : Host) (sn i : String) (f : Service → Service) :
    (h.modifyService sn i f).addresses = h.addresses := rfl

@[simp] theorem modifyHeadService_lease (h : Host) (f : Service → Service) :
    (h.modifyHeadService f).lease = h.lease := by
  unfold Host.modifyHeadService; split <;> rfl
@[simp] theorem modifyHeadService_keyLease (h : Host) (f : Service → Service) :
    (h.modifyHeadService f).keyLease = h.keyLease := by
  unfold Host.modifyHeadService; split <;> rfl
@[simp] theorem modifyHeadService_addresses (h : Host) (f : Service → Service) :
    (h.modifyHeadService f).addresses = h.addresses := by
  unfold Host.modifyHeadService; split <;> rfl
@[simp] theorem modifyHeadService_fullName (h : Host) (f : Service → Service) :
    (h.modifyHeadService f).fullName = h.fullName := by
  unfold Host.modifyHeadService; split <;> rfl
@[simp] theorem modifyHeadService_serviceDescriptions (h : Host) (f : Service → Service) :
    (h.modifyHeadService f).serviceDescriptions = h.serviceDescriptions := by
  unfold Host.modifyHeadService; split <;> rfl

@[simp] theorem addNewService_lease (h : Host) (sn i : String) (st : Bool) (t : Nat) :
    (h.addNewService sn i st t).lease = h.lease := by
  simp only [Host.addNewService]; split <;> rfl
@[simp] theorem addNewService_keyLease (h : Host) (sn i : String) (st : Bool) (t : Nat) :
    (h.addNewService sn i st t).keyLease = h.keyLease := by
  simp only [Host.addNewService]; split <;> rfl
@[simp] theorem addNewService_addresses (h : Host) (sn i : String) (st : Bool) (t : Nat) :
    (h.addNewService sn i st t).addresses = h.addresses := by
  simp only [Host.addNewService]; split <;> rfl
@[simp] theorem addNewService_fullName (h : Host) (sn i : String) (st : Bool) (t : Nat) :
    (h.addNewService sn i st t).fullName = h.fullName := by
  simp only [Host.addNewService]; split <;> rfl

theorem addNewService_services (h : Host) (sn i : String) (st : Bool) (t : Nat) :
    (h.addNewService sn i st t).services =
      { serviceName := sn, instanceName := i, isSubType := st, isDeleted := false,
        isCommitted := false, updateTime := t } :: h.services := by
  simp only [Host.addNewService]; split <;> rfl

/-! ### Field preservation across the merge and extension folds -/

theorem mergeAdopt_fields (now : Nat) (ex : Host) (svc : Service) :
    (mergeAdopt now ex svc).lease = ex.lease
    ∧ (mergeAdopt now ex svc).keyLease = ex.keyLease
    ∧ (mergeAdopt now ex svc).addresses = ex.addresses := by
  unfold mergeAdopt; split <;> simp

theorem mergeTakeResources_fields (cand : Host) (now : Nat) (ex2 : Host) (svc : Service) :
    (mergeTakeResources cand now ex2 svc).lease = ex2.lease
    ∧ (mergeTakeResources cand now ex2 svc).keyLease = ex2.keyLease
    ∧ (mergeTakeResources cand now ex2 svc).addresses = ex2.addresses := by
  unfold mergeTakeResources; split <;> simp

theorem mergeStep_fields (cand : Host) (now : Nat) (ex : Host) (svc : Service) :
    (mergeStep cand now ex svc).lease = ex.lease
    ∧ (mergeStep cand now ex svc).keyLease = ex.keyLease
    ∧ (mergeStep cand now ex svc).addresses = ex.addresses := by
  unfold mergeStep
  split
  · simp
  split
  · exact mergeAdopt_fields now ex svc
  · obtain ⟨a1, a2, a3⟩ := mergeTakeResources_fields cand now (mergeAdopt now ex svc) svc
    obtain ⟨b1, b2, b3⟩ := mergeAdopt_fields now ex svc
    exact ⟨a1.trans b1, a2.trans b2, a3.trans b3⟩

theorem extendStep_fields (aRxTime : Nat) (cand : Host) (svc : Service) :
    (extendStep aRxTime cand svc).lease = cand.lease
    ∧ (extendStep aRxTime cand svc).keyLease = cand.keyLease
    ∧ (extendStep aRxTime cand svc).addresses = cand.addresses := by
  unfold extendStep
  split
  · exact ⟨rfl, rfl, rfl⟩
  split
  · exact ⟨rfl, rfl, rfl⟩
  · simp

theorem foldl_fields_preserved {β : Type} (f : Host → β → Host)
    (hf : ∀ h b, (f h b).lease = h.lease ∧ (f h b).keyLease = h.keyLease
          ∧ (f h b).addresses = h.addresses) :
    ∀ (l : List β) (h : Host),
      (l.foldl f h).lease = h.lease ∧ (l.foldl f h).keyLease = h.keyLease
      ∧ (l.foldl f h).addresses = h.addresses := by
  intro l
  induction l with
  | nil => intro h; exact ⟨rfl, rfl, rfl⟩
  | cons b rest ih =>
    intro h
    obtain ⟨a1, a2, a3⟩ := ih (f h b)
    obtain ⟨b1, b2, b3⟩ := hf h b
    rw [List.foldl_cons]
    exact ⟨a1.trans b1, a2.trans b2, a3.trans b3⟩

theorem mergeFrom_fields (ex cand : Host) (now : Nat) :
    (ex.mergeFrom cand now).lease = cand.lease
    ∧ (ex.mergeFrom cand now).keyLease = cand.keyLease
    ∧ (ex.mergeFrom cand now).addresses = cand.addresses := by
  unfold Host.mergeFrom
  exact foldl_fields_preserved (mergeStep cand now)
    (fun h b => mergeStep_fields cand now h b) cand.services _

theorem handleUpdateExtend_fields (hosts : List Host) (host : Host) (aRxTime : Nat) :
    (handleUpdateExtend hosts host aRxTime).lease = host.lease
    ∧ (handleUpdateExtend hosts host aRxTime).keyLease = host.keyLease
    ∧ (host.lease ≠ 0 →
        (handleUpdateExtend hosts host aRxTime).addresses = host.addresses) := by
  unfold handleUpdateExtend
  by_cases hl : (host.lease != 0) = true
  · rw [if_pos hl]; exact ⟨rfl, rfl, fun _ => rfl⟩
  · rw [if_neg hl]
    have hl0 : host.lease = 0 := by simpa using hl
    have hfold := fun (l : List Service) =>
      foldl_fields_preserved (extendStep aRxTime)
        (fun h b => extendStep_fields aRxTime h b) l host.clearResources
    refine ⟨?_, ?_, fun hne => absurd hl0 hne⟩ <;>
      · rcases hfn : host.fullName with _ | name
        · simp [hfn]
        · simp only [clearResources_fullName, hfn]
          rcases hfh : findHost hosts name with _ | ex
          · simp [hfh]
          · simp [hfh, (hfold ex.services).1, (hfold ex.services).2.1]

/-! ### Lease grant arithmetic -/

theorem grantLease_le_grantKeyLease (cfg : LeaseConfig) {l k : Nat}
    (hcfg : cfg.isValid = true) (hlk : l ≤ k) :
    cfg.grantLease l ≤ cfg.grantKeyLease k := by
  have h := hcfg
  simp only [LeaseConfig.isValid, Bool.and_eq_true, decide_eq_true_eq] at h
  obtain ⟨⟨⟨⟨_, h1⟩, h2⟩, h3⟩, h4⟩ := h
  unfold LeaseConfig.grantLease LeaseConfig.grantKeyLease
  by_cases hl : l = 0
  · simp [hl]
  · have hk : ¬ k = 0 := by omega
    rw [if_neg hl, if_neg hk]
    omega

theorem grantLease_ne_zero (cfg : LeaseConfig) {l : Nat} (h : cfg.grantLease l ≠ 0) :
    l ≠ 0 := by
  intro h0
  subst h0
  exact h rfl

theorem processAdditionalSection_ok_inv (addl : AdditionalSection) (h0 host : Host)
    (hparse : processAdditionalSection addl h0 = .ok host) :
    host.lease ≤ host.keyLease ∧ (host.lease ≠ 0 → host.addresses ≠ []) := by
  simp only [processAdditionalSection] at hparse
  by_cases c1 : (addl.additionalRecordCount != 2) = true
  · rw [if_pos c1] at hparse; cases hparse
  rw [if_neg c1] at hparse
  by_cases c2 : (!addl.optRecord.isValid) = true
  · rw [if_pos c2] at hparse; cases hparse
  rw [if_neg c2] at hparse
  by_cases c3 : (!addl.optSizeOk) = true
  · rw [if_pos c3] at hparse; cases hparse
  rw [if_neg c3] at hparse
  have hlk : addl.optRecord.leaseInterval ≤ addl.optRecord.keyLeaseInterval := by
    have hv : addl.optRecord.isValid = true := by
      rcases Bool.eq_false_or_eq_true addl.optRecord.isValid with ht | hf
      · exact ht
      · exact absurd (by simp [hf]) c2
    simpa [LeaseOption.isValid] using hv
  by_cases c4 : (addl.optRecord.leaseInterval != 0 && h0.addresses.isEmpty) = true
  · rw [if_pos c4] at hparse; cases hparse
  rw [if_neg c4] at hparse
  by_cases c5 : (!addl.sig.algorithmEcdsaP256) = true
  · rw [if_pos c5] at hparse; cases hparse
  rw [if_neg c5] at hparse
  by_cases c6 : (addl.sig.typeCovered != 0) = true
  · rw [if_pos c6] at hparse; cases hparse
  rw [if_neg c6] at hparse
  by_cases c7 : (!addl.sig.signatureLengthOk) = true
  · rw [if_pos c7] at hparse; cases hparse
  rw [if_neg c7] at hparse
  by_cases c8 : (!addl.sig.signatureVerifies) = true
  · rw [if_pos c8] at hparse; cases hparse
  rw [if_neg c8] at hparse
  cases hparse
  refine ⟨hlk, fun hne hemp => ?_⟩
  apply c4
  rw [Bool.and_eq_true]
  constructor
  · simpa using hne
  · simp_all

end SrpServer

namespace SrpServer

theorem leaseInvariant_of (x : Host) (h1 : x.lease ≤ x.keyLease)
    (h2 : x.lease = 0 ∨ x.addresses ≠ []) : x.leaseInvariant = true := by
  rw [Host.leaseInvariant, Bool.and_eq_true]
  refine ⟨by simpa using h1, ?_⟩
  rw [Bool.or_eq_true]
  rcases h2 with h | h
  · exact Or.inl (by simpa using h)
  · refine Or.inr ?_
    simp only [Bool.not_eq_true']
    rwa [List.isEmpty_eq_false]

theorem mergeFrom_leaseInvariant (y C : Host) (now : Nat)
    (h1 : C.lease ≤ C.keyLease) (h2 : C.lease = 0 ∨ C.addresses ≠ []) :
    Host.leaseInvariant (y.mergeFrom C now) = true := by
  obtain ⟨m1, m2, m3⟩ := mergeFrom_fields y C now
  apply leaseInvariant_of
  · rw [m1, m2]; exact h1
  · rcases h2 with h | h
    · exact Or.inl (by rw [m1]; exact h)
    · exact Or.inr (by rw [m3]; exact h)

theorem commitSrpUpdate_preserves (cand : Host) (cfg : LeaseConfig) (direct : Bool)
    (now : Nat) (hosts : List Host)
    (hreg : registryLeaseInvariant hosts = true)
    (hcfg : cfg.isValid = true)
    (hlk : cand.lease ≤ cand.keyLease)
    (haddr : cand.lease ≠ 0 → cand.addresses ≠ []) :
    registryLeaseInvariant (commitSrpUpdate none cand direct cfg now hosts).1 = true := by
  have hinv := (registryLeaseInvariant_iff hosts).mp hreg
  have hglk := grantLease_le_grantKeyLease cfg hcfg hlk
  rw [registryLeaseInvariant_iff]
  intro x hx
  simp only [commitSrpUpdate] at hx
  rcases hfn : cand.fullName with _ | name
  · simp only [hfn] at hx
    exact hinv x hx
  · simp only [hfn] at hx
    by_cases hg0 : cfg.grantLease cand.lease = 0
    · by_cases hk0 : cfg.grantKeyLease cand.keyLease = 0
      · rw [if_pos hg0, if_pos hk0] at hx
        exact hinv x (mem_removeFirstHost name hosts x hx)
      · rw [if_pos hg0, if_neg hk0] at hx
        rcases mem_modifyFirst _ _ hosts x hx with hmem | ⟨y, hy, hxy⟩
        · exact hinv x hmem
        · subst hxy
          exact leaseInvariant_of _ (by simp) (Or.inl rfl)
    · have hcl : cand.lease ≠ 0 := grantLease_ne_zero cfg hg0
      rw [if_neg hg0] at hx
      rcases hfh : findHost hosts name with _ | ex
      · rw [hfh] at hx
        rcases List.mem_cons.mp hx with rfl | hmem
        · exact leaseInvariant_of _ hglk (Or.inr (haddr hcl))
        · exact hinv x hmem
      · rw [hfh] at hx
        rcases mem_modifyFirst _ _ hosts x hx with hmem | ⟨y, hy, hxy⟩
        · exact hinv x hmem
        · subst hxy
          exact mergeFrom_leaseInvariant y _ now hglk (Or.inr (haddr hcl))

/-- C2: committing any successfully parsed candidate (after the removal
completion of HandleUpdate) into a registry satisfying the lease invariant
yields a registry that still satisfies it: every host has
`lease ≤ key_lease`, and a host with a nonzero lease has at least one
address.  The candidate's obligations come from the Additional-section
processing (lease option validity and the address check). -/
theorem commit_preserves_lease_invariant
    (hosts : List Host) (cfg : LeaseConfig) (addl : AdditionalSection) (h0 host : Host)
    (direct : Bool) (aRxTime now : Nat)
    (hreg : registryLeaseInvariant hosts = true)
    (hcfg : cfg.isValid = true)
    (hparse : processAdditionalSection addl h0 = .ok host) :
    registryLeaseInvariant
      (commitSrpUpdate none (handleUpdateExtend hosts host aRxTime) direct cfg now
        hosts).1 = true := by
  obtain ⟨hlk, haddr⟩ := processAdditionalSection_ok_inv addl h0 host hparse
  obtain ⟨e1, e2, e3⟩ := handleUpdateExtend_fields hosts host aRxTime
  apply commitSrpUpdate_preserves _ cfg direct now hosts hreg hcfg
  · rw [e1, e2]; exact hlk
  · rw [e1]; intro hne; rw [e3 hne]; exact haddr hne

/-- C2 (witness): a fresh registration committing into an empty registry. -/
theorem commit_preserves_lease_invariant_witness :
    registryLeaseInvariant
      (commitSrpUpdate none (handleUpdateExtend [] c2Host 5) true exLeaseConfig 6 []).1
      = true :=
  commit_preserves_lease_invariant [] exLeaseConfig exAdditional c4Host c2Host true 5 6
    (by decide) (by decide) (by decide)

/-- C1: a successfully parsed update whose candidate host name is owned by
an existing registry host with a different key, or one of whose candidate
service instance names appears under an existing host with a different key,
stops with Duplicated, which maps to RCODE YXDomain (NameExists) for a
direct client, and the registry and outstanding-update list are returned
unchanged with no handler notification. -/
theorem conflict_update_rejected
    (hosts : List Host) (aDomain : String) (aZoneClass aRxTime : Nat)
    (records : List UpdateRecord) (h1 h2 h3 : Host)
    (hp1 : processServiceDiscoveryInstructions aDomain aZoneClass aRxTime
        (initialHost aRxTime) records = .ok h1)
    (hp2 : processHostDescriptionInstruction aZoneClass h1 records = .ok h2)
    (hp3 : processServiceDescriptionInstructions aDomain aZoneClass aRxTime h2 records
        = .ok h3)
    (hconf :
      (∃ aName existingHost, h3.fullName = some aName
         ∧ findHost hosts aName = some existingHost ∧ existingHost.key ≠ h3.key)
      ∨ (∃ d ∈ h3.serviceDescriptions, ∃ ex ∈ hosts,
           (ex.findServiceDescription d.instanceName).isSome = true ∧ ex.key ≠ h3.key)) :
    processUpdateSection hosts aDomain aZoneClass aRxTime (initialHost aRxTime) records
      = .error .duplicated
    ∧ errorToDnsResponseCode (some .duplicated) = DnsResponse.nameExists
    ∧ (∀ outstanding cfg hp msg info now freshId,
        msg.updateRecords = records → msg.prerequisiteCount = 0 →
        processZoneSection aDomain msg.zone = .ok aZoneClass →
        findOutstandingUpdate outstanding
          { messageId := msg.messageId, messageInfo := some info, rxTime := aRxTime }
          = none →
        processDnsUpdate hosts outstanding aDomain cfg hp msg (some info) aRxTime now
            freshId
          = { hosts := hosts, outstanding := outstanding,
              response := some { code := DnsResponse.nameExists },
              notifiedUpdateId := none }) := by
  have hcb : hasNameConflictsWith hosts h3 = true := by
    rcases hconf with ⟨aName, ex, hn, hf, hk⟩ | ⟨d, hd, ex, hex, hsome, hk⟩
    · simp only [hasNameConflictsWith, hn, hf, Bool.or_eq_true]
      exact Or.inl (by simpa [bne_iff_ne] using hk)
    · simp only [hasNameConflictsWith, Bool.or_eq_true]
      refine Or.inr (List.any_eq_true.mpr ⟨d, hd, List.any_eq_true.mpr ⟨ex, hex, ?_⟩⟩)
      rw [Bool.and_eq_true]
      exact ⟨hsome, by simpa [bne_iff_ne] using hk⟩
  have hsec : processUpdateSection hosts aDomain aZoneClass aRxTime (initialHost aRxTime)
      records = .error .duplicated := by
    simp only [processUpdateSection, hp1, hp2, hp3, hcb, if_true]
  refine ⟨hsec, rfl, ?_⟩
  intro outstanding cfg hp msg info now freshId hrecs hpre hzone hfind
  rw [processDnsUpdate, hzone, hfind]
  simp only [Option.isSome_none, Bool.false_eq_true, if_false]
  rw [processDnsUpdateCore]
  have hpre2 : (msg.prerequisiteCount != 0) = false := by simp [hpre]
  rw [hpre2, hrecs, hsec]
  rfl

/-- C1 (witness): a client holding key 7 claims `exHostName`, owned in the
registry under key 99; the update section errors Duplicated and the whole
processing answers NameExists leaving the registry unchanged. -/
theorem conflict_update_rejected_witness :
    processUpdateSection c1Registry exDomain 1 5 (initialHost 5) c1Recs
      = .error .duplicated
    ∧ processDnsUpdate c1Registry [] exDomain exLeaseConfig true c1Msg
        (some { addr := 1, port := 2 }) 5 6 43
      = { hosts := c1Registry, outstanding := [],
          response := some { code := DnsResponse.nameExists },
          notifiedUpdateId := none } := by
  obtain ⟨hA, _, hC⟩ := conflict_update_rejected c1Registry exDomain 1 5 c1Recs
    (initialHost 5) c1Host2 c1Host2 (by decide) (by decide) (by decide)
    (Or.inl ⟨exHostName, c1ExistingHost, rfl, by decide, by decide⟩)
  exact ⟨hA, hC [] exLeaseConfig true c1Msg { addr := 1, port := 2 } 6 43 rfl rfl
    (by decide) (by decide)⟩

end SrpServer

namespace SrpServer

theorem dnsMatch_self (a : String) : dnsMatch a a = true := by
  simp [dnsMatch]

theorem modifyHeadService_services_cons (h : Host) (f : Service → Service) (s : Service)
    (rest : List Service) (hs : h.services = s :: rest) :
    (h.modifyHeadService f).services = f s :: rest := by
  simp only [Host.modifyHeadService, hs]

theorem extendStep_services_cases (aRxTime : Nat) (cand : Host) (svc : Service) :
    ((svc.isDeleted = true
        ∨ (cand.findService svc.serviceName svc.instanceName).isSome = true)
      ∧ (extendStep aRxTime cand svc).services = cand.services)
    ∨ ((svc.isDeleted = false ∧ cand.findService svc.serviceName svc.instanceName = none)
       ∧ (extendStep aRxTime cand svc).services =
          { serviceName := svc.serviceName, instanceName := svc.instanceName,
            isSubType := svc.isSubType, isDeleted := true, isCommitted := false,
            updateTime := aRxTime } :: cand.services) := by
  unfold extendStep
  split
  · rename_i hdel
    exact Or.inl ⟨Or.inl hdel, rfl⟩
  split
  · rename_i hfound
    exact Or.inl ⟨Or.inr hfound, rfl⟩
  · rename_i hdel hfound
    refine Or.inr ⟨⟨by simpa using hdel, ?_⟩, ?_⟩
    · rcases h : cand.findService svc.serviceName svc.instanceName with _ | s
      · rfl
      · exact absurd (by simp [h]) hfound
    · have h1 : ((cand.addNewService svc.serviceName svc.instanceName svc.isSubType
          aRxTime).modifyDesc svc.instanceName
            (fun d => { d with updateTime := some aRxTime })).services =
          { serviceName := svc.serviceName, instanceName := svc.instanceName,
            isSubType := svc.isSubType, isDeleted := false, isCommitted := false,
            updateTime := aRxTime } :: cand.services := by
        rw [modifyDesc_services, addNewService_services]
      rw [modifyHeadService_services_cons _ _ _ _ h1]

theorem find?_isSome_cons {α : Type} (p : α → Bool) (x : α) (l : List α)
    (h : (l.find? p).isSome = true) : ((x :: l).find? p).isSome = true := by
  cases hx : p x <;> simp [List.find?_cons, hx, h]

theorem extendStep_findService_isSome (aRxTime : Nat) (cand : Host) (svc : Service)
    (sn inst : String) (h : (cand.findService sn inst).isSome = true) :
    ((extendStep aRxTime cand svc).findService sn inst).isSome = true := by
  rcases extendStep_services_cases aRxTime cand svc with ⟨_, hs⟩ | ⟨_, hs⟩
  · rw [Host.findService, hs]; exact h
  · rw [Host.findService, hs]
    exact find?_isSome_cons _ _ _ h

theorem extendStep_mem (aRxTime : Nat) (cand : Host) (svc s : Service)
    (h : s ∈ cand.services) : s ∈ (extendStep aRxTime cand svc).services := by
  rcases extendStep_services_cases aRxTime cand svc with ⟨_, hs⟩ | ⟨_, hs⟩
  · rw [hs]; exact h
  · rw [hs]; exact List.mem_cons_of_mem _ h

theorem extendStep_findService_none (aRxTime : Nat) (cand : Host) (svc : Service)
    (sn inst : String)
    (hne : ¬(dnsMatch svc.serviceName sn = true ∧ dnsMatch svc.instanceName inst = true))
    (h : cand.findService sn inst = none) :
    (extendStep aRxTime cand svc).findService sn inst = none := by
  rcases extendStep_services_cases aRxTime cand svc with ⟨_, hs⟩ | ⟨_, hs⟩
  · rw [Host.findService, hs]; exact h
  · rw [Host.findService, hs, List.find?_cons_of_neg]
    · exact h
    · simp only [Bool.and_eq_true]
      exact hne

theorem extendStep_adds (aRxTime : Nat) (cand : Host) (svc : Service)
    (hdel : svc.isDeleted = false)
    (hnf : cand.findService svc.serviceName svc.instanceName = none) :
    (extendStep aRxTime cand svc).services =
      { serviceName := svc.serviceName, instanceName := svc.instanceName,
        isSubType := svc.isSubType, isDeleted := true, isCommitted := false,
        updateTime := aRxTime } :: cand.services := by
  rcases extendStep_services_cases aRxTime cand svc with ⟨hq, _⟩ | ⟨_, hs⟩
  · rcases hq with hq | hq
    · rw [hdel] at hq; cases hq
    · rw [hnf] at hq; cases hq
  · exact hs

theorem foldExtend_findService_isSome (aRxTime : Nat) (l : List Service) (cand : Host)
    (sn inst : String) (h : (cand.findService sn inst).isSome = true) :
    ((l.foldl (extendStep aRxTime) cand).findService sn inst).isSome = true := by
  induction l generalizing cand with
  | nil => exact h
  | cons a rest ih =>
    rw [List.foldl_cons]
    exact ih _ (extendStep_findService_isSome aRxTime cand a sn inst h)

theorem foldExtend_mem (aRxTime : Nat) (l : List Service) (cand : Host) (s : Service)
    (h : s ∈ cand.services) : s ∈ (l.foldl (extendStep aRxTime) cand).services := by
  induction l generalizing cand with
  | nil => exact h
  | cons a rest ih =>
    rw [List.foldl_cons]
    exact ih _ (extendStep_mem aRxTime cand a s h)

theorem foldExtend_complete (aRxTime : Nat) (l : List Service) (cand : Host)
    (hdist : l.Pairwise servicePairDistinct) :
    ∀ svc ∈ l, svc.isDeleted = false →
      (((l.foldl (extendStep aRxTime) cand).findService svc.serviceName
          svc.instanceName).isSome = true)
      ∧ (cand.findService svc.serviceName svc.instanceName = none →
         ∃ s ∈ (l.foldl (extendStep aRxTime) cand).services,
           dnsMatch s.serviceName svc.serviceName = true
           ∧ dnsMatch s.instanceName svc.instanceName = true
           ∧ s.isSubType = svc.isSubType ∧ s.isDeleted = true
           ∧ s.updateTime = aRxTime) := by
  induction l generalizing cand with
  | nil => intro svc hmem; cases hmem
  | cons a rest ih =>
    intro svc hmem hdel
    rw [List.pairwise_cons] at hdist
    obtain ⟨ha, hrest⟩ := hdist
    rw [List.foldl_cons]
    rcases List.mem_cons.mp hmem with rfl | hsvc
    · by_cases hfound : (cand.findService svc.serviceName svc.instanceName).isSome = true
      · constructor
        · exact foldExtend_findService_isSome aRxTime rest _ _ _
            (extendStep_findService_isSome aRxTime cand svc _ _ hfound)
        · intro hnone
          rw [hnone] at hfound
          cases hfound
      · have hnone : cand.findService svc.serviceName svc.instanceName = none := by
          rcases hcand : cand.findService svc.serviceName svc.instanceName with _ | s
          · rfl
          · exact absurd (by simp [hcand]) hfound
        have hadd := extendStep_adds aRxTime cand svc hdel hnone
        constructor
        · apply foldExtend_findService_isSome
          rw [Host.findService, hadd, List.find?_cons_of_pos]
          · rfl
          · simp [dnsMatch_self]
        · intro _
          refine ⟨_, foldExtend_mem aRxTime rest _ _
            (by rw [hadd]; exact List.mem_cons_self _ _), ?_⟩
          exact ⟨dnsMatch_self _, dnsMatch_self _, rfl, rfl, rfl⟩
    · obtain ⟨ih1, ih2⟩ := ih (extendStep aRxTime cand a) hrest svc hsvc hdel
      refine ⟨ih1, fun hnone => ih2 ?_⟩
      exact extendStep_findService_none aRxTime cand a _ _ (ha svc hsvc) hnone

/-- C8: for a successfully parsed removal update (lease 0) naming an
existing registry host, the candidate is extended before handler
notification so that every non-deleted service of the existing host appears
on it; each service the update did not itself mention is present as a copy
with the same names and sub-type flag, marked deleted, stamped with the
receive time.  The existing host's service list is assumed
duplicate-free, which committed hosts satisfy. -/
theorem host_removal_lists_all_services
    (hosts : List Host) (host : Host) (aRxTime : Nat) (aName : String)
    (existingHost : Host)
    (hlease : host.lease = 0)
    (hname : host.fullName = some aName)
    (hex : findHost hosts aName = some existingHost)
    (hdist : existingHost.services.Pairwise servicePairDistinct) :
    ∀ svc ∈ existingHost.services, svc.isDeleted = false →
      (((handleUpdateExtend hosts host aRxTime).findService svc.serviceName
          svc.instanceName).isSome = true)
      ∧ (host.findService svc.serviceName svc.instanceName = none →
         ∃ s ∈ (handleUpdateExtend hosts host aRxTime).services,
           dnsMatch s.serviceName svc.serviceName = true
           ∧ dnsMatch s.instanceName svc.instanceName = true
           ∧ s.isSubType = svc.isSubType ∧ s.isDeleted = true
           ∧ s.updateTime = aRxTime) := by
  have hl : (host.lease != 0) = false := by simp [hlease]
  have hE : handleUpdateExtend hosts host aRxTime =
      existingHost.services.foldl (extendStep aRxTime) host.clearResources := by
    simp only [handleUpdateExtend, hl, Bool.false_eq_true, if_false,
      clearResources_fullName, hname, hex]
  rw [hE]
  intro svc hmem hdel
  obtain ⟨h1, h2⟩ := foldExtend_complete aRxTime existingHost.services host.clearResources
    hdist svc hmem hdel
  exact ⟨h1, fun hn => h2 hn⟩

/-- C8 (witness): removing `exHostName` without mentioning its registered
service: the extended candidate carries a deleted copy of that service. -/
theorem host_removal_lists_all_services_witness :
    (((handleUpdateExtend [c8Existing] exRemovalHost 5).findService exSvcName
        exInstName).isSome = true)
    ∧ ∃ s ∈ (handleUpdateExtend [c8Existing] exRemovalHost 5).services,
        dnsMatch s.serviceName exSvcName = true
        ∧ dnsMatch s.instanceName exInstName = true
        ∧ s.isSubType = false ∧ s.isDeleted = true ∧ s.updateTime = 5 := by
  obtain ⟨h1, h2⟩ := host_removal_lists_all_services [c8Existing] exRemovalHost 5
    exHostName c8Existing rfl rfl (by decide) (by decide) c8Svc (by decide) rfl
  exact ⟨h1, h2 (by decide)⟩

end SrpServer
